import Mathlib

/-!
Verification development for the Chebyshev-style polynomial approximator
(`src/ckks/bootCheby.py`).

The shallow embedding below translates the Python class `Chebyshev` into Lean.
Python floats are modelled as elements of an arbitrary linear ordered field
`α`; the transcendental functions `math.cos` and the constant `math.pi` are
passed in as parameters `cosf : α → α` and `piv : α` (instantiated with
`Real.cos` and `Real.pi` for concrete statements over `ℝ`).  Fallible Python
operations (list indexing, division by an integer zero, the `assert`
statement, exceptions raised by the supplied callable) are modelled with
`Except PyErr`.
-/

namespace BootCheby

/-- The Python runtime errors the embedded code can raise.
`indexError` models `IndexError` (out-of-range list subscript),
`zeroDivisionError` models `ZeroDivisionError`,
`assertionError` models `AssertionError` (from `assert(a <= x <= b)` in
`eval` — the specification's `DomainError`), and `valueError` stands for an
arbitrary exception raised by the user-supplied function capability. -/
inductive PyErr : Type where
  | indexError
  | zeroDivisionError
  | assertionError
  | valueError
deriving DecidableEq

/-- The state retained by a constructed `Chebyshev` object: the interval
bounds `self.a`, `self.b` and the coefficient vector `self.c`.  (The source
also stores `self.func`, but it is never read again after construction, so
it is not retained here.) -/
structure Chebyshev (α : Type) where
  a : α
  b : α
  c : List α

/-- Checked list subscript `l[k]` for a non-negative index, as in Python:
out-of-range access raises `IndexError`. -/
def idx {β : Type} (l : List β) (k : ℕ) : Except PyErr β :=
  match l[k]? with
  | some v => Except.ok v
  | none => Except.error PyErr.indexError

/-- Evaluation of a Python list comprehension whose body may raise: the
elements are produced left to right and the first raised error aborts the
whole comprehension. -/
def mapE {β γ : Type} (g : β → Except PyErr γ) : List β → Except PyErr (List γ)
  | [] => Except.ok []
  | x :: xs =>
    match g x with
    | Except.error err => Except.error err
    | Except.ok y =>
      match mapE g xs with
      | Except.error err => Except.error err
      | Except.ok ys => Except.ok (y :: ys)

variable {α : Type} [LinearOrderedField α]

/-- `K = 9`, the number of node clusters (source line 26). -/
def K : ℕ := 9

/-- `deg = [3, 3, 3, 4, 5, 4, 3, 3, 3]`, the per-cluster node counts
(source line 27). -/
def deg : List ℕ := [3, 3, 3, 4, 5, 4, 3, 3, 3]

/-- The node list built by the double loop of source lines 28–32:
for `i in range(K)`, for `j in range(1, deg[i]+1)`,
append `i - (K >> 1) + e * cos(((j - 0.5) / deg[i]) * pi)` with `e = 0.01`. -/
def chebNodes (cosf : α → α) (piv : α) : List α :=
  (List.range K).flatMap (fun i =>
    (List.range' 1 (deg.getD i 0)).map (fun j =>
      ((i : α) - ((K >>> 1 : ℕ) : α)) +
        (1 / 100) * cosf ((((j : α) - 1 / 2) / ((deg.getD i 0 : ℕ) : α)) * piv)))

/-- `Lagrange_polynomial(x, i, points)` (source lines 47–52): the running
product over `k in range(len(points))`, skipping `k = i`, of
`(x - points[k]) / (points[i] - points[k])`. -/
def Lagrange_polynomial (x : α) (i : ℕ) (points : List α) : α :=
  ((List.range points.length).map (fun k =>
    if k ≠ i then (x - points.getD k 0) / (points.getD i 0 - points.getD k 0)
    else 1)).prod

/-- The constructor `Chebyshev.__init__(a, b, n, func)` (source lines 18–42):
1. build `nodes` (31 of them, lines 26–32);
2. `f = [func(nodes[k]) for k in range(n)]` (line 36) — `IndexError` when
   `n > 31`;
3. `fac = 2.0 / n` (line 37) — `ZeroDivisionError` when `n = 0`;
4. the discrete-cosine-transform coefficients
   `self.c = [fac * sum([f[k] * cos(pi*j*(k+0.5)/n) for k in range(n)]) for j in range(n)]`
   (line 38);
5. that vector is unconditionally overwritten (line 42) by
   `self.c = [self.Lagrange_polynomial(f[i], i, nodes) for i in range(len(nodes))]`
   — `IndexError` reading `f[i]` when `n < 31`.
No validation of the interval or of the degree is performed. -/
def construct (cosf : α → α) (piv : α) (a b : α) (n : ℕ) (func : α → α) :
    Except PyErr (Chebyshev α) :=
  let nodes := chebNodes cosf piv
  match mapE (fun k => Except.map func (idx nodes k)) (List.range n) with
  | Except.error err => Except.error err
  | Except.ok f =>
    if n = 0 then Except.error PyErr.zeroDivisionError
    else
      let fac : α := 2 / (n : α)
      match mapE (fun (j : ℕ) =>
          Except.map (fun ts => fac * ts.sum)
            (mapE (fun (k : ℕ) =>
                Except.map (fun fk => fk * cosf (piv * (j : α) * ((k : α) + 1 / 2) / (n : α)))
                  (idx f k))
              (List.range n)))
        (List.range n) with
      | Except.error err => Except.error err
      | Except.ok _cdct =>
        match mapE (fun i =>
            Except.map (fun fi => Lagrange_polynomial fi i nodes) (idx f i))
          (List.range nodes.length) with
        | Except.error err => Except.error err
        | Except.ok c => Except.ok { a := a, b := b, c := c }

/-- `eval(x)` (source lines 69–77): `assert(a <= x <= b)`; then
`y = (2.0*x - a - b) * (1.0 / (b - a))` (`ZeroDivisionError` when `b = a`),
`d, dd = c[-1], 0` (`IndexError` when `c` is empty), Clenshaw's recurrence
over the slice `c[-2:0:-1]`, and finally `y*d - dd + 0.5*c[0]`. -/
def Chebyshev.eval (ch : Chebyshev α) (x : α) : Except PyErr α :=
  if ch.a ≤ x ∧ x ≤ ch.b then
    if ch.b - ch.a = 0 then Except.error PyErr.zeroDivisionError
    else if ch.c.isEmpty then Except.error PyErr.indexError
    else
      let y := (2 * x - ch.a - ch.b) * (1 / (ch.b - ch.a))
      let y2 := 2 * y
      let dp := (((ch.c.drop 1).dropLast).reverse).foldl
        (fun dp cj => (y2 * dp.1 - dp.2 + cj, dp.1)) (ch.c.getLastD 0, (0 : α))
      Except.ok (y * dp.1 - dp.2 + (1 / 2) * ch.c.getD 0 0)
  else Except.error PyErr.assertionError

/-- Variant of `construct` in which the supplied function capability may
itself raise (the callable argument of `__init__` is an arbitrary Python
callable); the only difference from `construct` is that sampling at line 36
propagates the callable's own error. -/
def constructF (cosf : α → α) (piv : α) (a b : α) (n : ℕ)
    (func : α → Except PyErr α) : Except PyErr (Chebyshev α) :=
  let nodes := chebNodes cosf piv
  match mapE (fun k => Except.bind (idx nodes k) func) (List.range n) with
  | Except.error err => Except.error err
  | Except.ok f =>
    if n = 0 then Except.error PyErr.zeroDivisionError
    else
      let fac : α := 2 / (n : α)
      match mapE (fun (j : ℕ) =>
          Except.map (fun ts => fac * ts.sum)
            (mapE (fun (k : ℕ) =>
                Except.map (fun fk => fk * cosf (piv * (j : α) * ((k : α) + 1 / 2) / (n : α)))
                  (idx f k))
              (List.range n)))
        (List.range n) with
      | Except.error err => Except.error err
      | Except.ok _cdct =>
        match mapE (fun i =>
            Except.map (fun fi => Lagrange_polynomial fi i nodes) (idx f i))
          (List.range nodes.length) with
        | Except.error err => Except.error err
        | Except.ok c => Except.ok { a := a, b := b, c := c }

/-- The Evaluator algorithm exactly as the specification words it: map `x` to
the normalized variable `y = (2x − lower − upper) / (upper − lower)`, run
Clenshaw's recurrence over the coefficient vector from the second-to-last
index down to index 1 with `d, dd` initialized to `coefficient[last], 0` and
each step setting `d, dd = 2y·d − dd + c_j, d`, and return
`y·d − dd + 0.5·coefficient[0]`. -/
def evalSpec (lower upper : α) (coeff : List α) (x : α) : α :=
  let y := (2 * x - lower - upper) / (upper - lower)
  let dp := (((List.range' 1 (coeff.length - 2)).reverse).map (fun j => coeff.getD j 0)).foldl
    (fun dp cj => (2 * y * dp.1 - dp.2 + cj, dp.1)) (coeff.getD (coeff.length - 1) 0, (0 : α))
  y * dp.1 - dp.2 + (1 / 2) * coeff.getD 0 0

/-- The per-cluster node counts as the claim words them. -/
def specClusterSizes : List ℕ := [3, 3, 3, 4, 5, 4, 3, 3, 3]

/-- The cluster offsets as the claim words them: the integers `-4 .. 4`. -/
def specClusterOffsets : List ℤ := [-4, -3, -2, -1, 0, 1, 2, 3, 4]

/-- The node sequence exactly as the claim words it: the concatenation, over
nine clusters `i = 0..8` with the cluster sizes above, of the values
`clusterOffset_i + 0.01 * cos(((j - 0.5) / clusterSize_i) * pi)` for
`j = 1..clusterSize_i`. -/
def specNodes (cosf : α → α) (piv : α) : List α :=
  ((List.range 9).map (fun i =>
    (List.range' 1 (specClusterSizes.getD i 0)).map (fun j =>
      ((specClusterOffsets.getD i 0 : ℤ) : α) +
        (1 / 100) * cosf ((((j : α) - 1 / 2) / ((specClusterSizes.getD i 0 : ℕ) : α)) * piv)))).flatten

/-- The constructor with the discrete-cosine-transform assignment (source
line 38) deleted, keeping everything else — including the
`fac = 2.0 / n` division of line 37 — unchanged.  Comparing `construct`
against this definition expresses that the DCT coefficient vector, being
unconditionally overwritten, has no effect on any observable output. -/
def constructNoDct (cosf : α → α) (piv : α) (a b : α) (n : ℕ) (func : α → α) :
    Except PyErr (Chebyshev α) :=
  let nodes := chebNodes cosf piv
  match mapE (fun k => Except.map func (idx nodes k)) (List.range n) with
  | Except.error err => Except.error err
  | Except.ok f =>
    if n = 0 then Except.error PyErr.zeroDivisionError
    else
      match mapE (fun i =>
          Except.map (fun fi => Lagrange_polynomial fi i nodes) (idx f i))
        (List.range nodes.length) with
      | Except.error err => Except.error err
      | Except.ok c => Except.ok { a := a, b := b, c := c }

theorem chebNodes_length (cosf : α → α) (piv : α) :
    (chebNodes cosf piv).length = 31 := by
  rfl

theorem idx_ok {β : Type} {l : List β} {k : ℕ} {v : β} (h : l[k]? = some v) :
    idx l k = Except.ok v := by
  simp [idx, h]

theorem idx_ok_getD {l : List α} {k : ℕ} (h : k < l.length) :
    idx l k = Except.ok (l.getD k 0) := by
  rw [List.getD_eq_getElem?_getD, List.getElem?_eq_getElem h]
  exact idx_ok (List.getElem?_eq_getElem h)

theorem idx_err {β : Type} {l : List β} {k : ℕ} (h : l.length ≤ k) :
    idx l k = Except.error PyErr.indexError := by
  simp [idx, List.getElem?_eq_none h]

theorem mapE_ok {β γ : Type} (g : β → Except PyErr γ) (v : β → γ) :
    ∀ l : List β, (∀ x ∈ l, g x = Except.ok (v x)) →
      mapE g l = Except.ok (l.map v)
  | [], _ => rfl
  | x :: xs, h => by
    have hx : g x = Except.ok (v x) := h x (List.mem_cons_self x xs)
    have hxs := mapE_ok g v xs (fun y hy => h y (List.mem_cons_of_mem x hy))
    simp [mapE, hx, hxs]

theorem isOk_ok {ε γ : Type} (v : γ) : (Except.ok v : Except ε γ).isOk = true := rfl

theorem isOk_error {ε γ : Type} (e : ε) : (Except.error e : Except ε γ).isOk = false := rfl

theorem mapE_not_ok {β γ : Type} (g : β → Except PyErr γ) :
    ∀ l : List β, ∀ x ∈ l, (g x).isOk = false → (mapE g l).isOk = false
  | y :: ys, x, hx, hfail => by
    rcases List.mem_cons.mp hx with rfl | hmem
    · cases hgy : g x with
      | error err => simp [mapE, hgy, isOk_error]
      | ok v => rw [hgy] at hfail; simp [isOk_ok] at hfail
    · cases hgy : g y with
      | error err => simp [mapE, hgy, isOk_error]
      | ok v =>
        have := mapE_not_ok g ys x hmem hfail
        cases hys : mapE g ys with
        | error err => simp [mapE, hgy, hys, isOk_error]
        | ok vs => rw [hys] at this; simp [isOk_ok] at this

theorem mapE_err {β γ : Type} (g : β → Except PyErr γ) (err : PyErr) :
    ∀ l : List β, (∀ x ∈ l, (g x).isOk = true ∨ g x = Except.error err) →
      ∀ x ∈ l, (g x).isOk = false → mapE g l = Except.error err
  | y :: ys, hshape, x, hx, hfail => by
    rcases List.mem_cons.mp hx with rfl | hmem
    · rcases hshape x (List.mem_cons_self x ys) with hok | herr
      · rw [hfail] at hok; exact absurd hok (by simp)
      · simp [mapE, herr]
    · cases hgy : g y with
      | error e =>
        rcases hshape y (List.mem_cons_self y ys) with hok | herr
        · rw [hgy] at hok; simp [isOk_error] at hok
        · rw [hgy] at herr; rw [herr] at hgy; simp [mapE, hgy]
      | ok v =>
        have ih := mapE_err g err ys
          (fun z hz => hshape z (List.mem_cons_of_mem y hz)) x hmem hfail
        simp [mapE, hgy, ih]

theorem getD_map_range {γ : Type} (v : ℕ → γ) {n k : ℕ} (h : k < n) (d : γ) :
    ((List.range n).map v).getD k d = v k := by
  rw [List.getD_eq_getElem?_getD, List.getElem?_map, List.getElem?_range h]
  rfl

theorem list_prod_range_eq_finset_prod (n : ℕ) (f : ℕ → α) :
    ((List.range n).map f).prod = Finset.prod (Finset.range n) f := by
  induction n with
  | zero => simp
  | succ m ih => rw [List.range_succ, Finset.prod_range_succ, List.map_append]; simp [ih]

theorem Lagrange_eq_prod (x : α) (i : ℕ) (points : List α) :
    Lagrange_polynomial x i points =
      Finset.prod ((Finset.range points.length).erase i)
        (fun k => (x - points.getD k 0) / (points.getD i 0 - points.getD k 0)) := by
  rw [Lagrange_polynomial, list_prod_range_eq_finset_prod, ← Finset.filter_ne',
    Finset.prod_filter]

theorem map_idx_shape {β γ : Type} (f' : β → γ) (l : List β) (k : ℕ) :
    (Except.map f' (idx l k)).isOk = true ∨
      Except.map f' (idx l k) = Except.error PyErr.indexError := by
  by_cases hk : k < l.length
  · left
    rw [idx_ok (List.getElem?_eq_getElem hk)]
    rfl
  · right
    rw [idx_err (le_of_not_lt hk)]
    rfl

/-- Shape of a successful construction: with the (only possible) degree 31,
`__init__` succeeds and the retained coefficient vector is the
Lagrange-basis-at-sample-value vector over the 31 nodes. -/
theorem construct_31 (cosf : α → α) (piv a b : α) (func : α → α) :
    construct cosf piv a b 31 func =
      Except.ok ⟨a, b, (List.range 31).map (fun i =>
        Lagrange_polynomial (func ((chebNodes cosf piv).getD i 0)) i
          (chebNodes cosf piv))⟩ := by
  have hlen := chebNodes_length cosf piv
  have h1 : mapE (fun k => Except.map func (idx (chebNodes cosf piv) k)) (List.range 31)
      = Except.ok ((List.range 31).map (fun k => func ((chebNodes cosf piv).getD k 0))) := by
    apply mapE_ok
    intro k hk
    rw [idx_ok_getD (by rw [hlen]; exact List.mem_range.mp hk)]
    rfl
  have hflen : ((List.range 31).map (fun k => func ((chebNodes cosf piv).getD k 0))).length
      = 31 := by simp
  have h2 : mapE (fun (j : ℕ) =>
        Except.map (fun ts => (2 / ((31 : ℕ) : α)) * ts.sum)
          (mapE (fun (k : ℕ) =>
              Except.map (fun fk => fk * cosf (piv * (j : α) * ((k : α) + 1 / 2) / ((31 : ℕ) : α)))
                (idx ((List.range 31).map (fun k => func ((chebNodes cosf piv).getD k 0))) k))
            (List.range 31)))
      (List.range 31)
      = Except.ok ((List.range 31).map (fun (j : ℕ) =>
          (2 / ((31 : ℕ) : α)) * ((List.range 31).map (fun (k : ℕ) =>
            (((List.range 31).map (fun k => func ((chebNodes cosf piv).getD k 0))).getD k 0) *
              cosf (piv * (j : α) * ((k : α) + 1 / 2) / ((31 : ℕ) : α)))).sum)) := by
    apply mapE_ok
    intro j _
    rw [mapE_ok _ (fun (k : ℕ) =>
        (((List.range 31).map (fun k => func ((chebNodes cosf piv).getD k 0))).getD k 0) *
          cosf (piv * (j : α) * ((k : α) + 1 / 2) / ((31 : ℕ) : α)))]
    · rfl
    · intro k hk
      rw [idx_ok_getD (by rw [hflen]; exact List.mem_range.mp hk)]
      rfl
  have h3 : mapE (fun i =>
        Except.map (fun fi => Lagrange_polynomial fi i (chebNodes cosf piv))
          (idx ((List.range 31).map (fun k => func ((chebNodes cosf piv).getD k 0))) i))
      (List.range (chebNodes cosf piv).length)
      = Except.ok ((List.range 31).map (fun i =>
          Lagrange_polynomial (func ((chebNodes cosf piv).getD i 0)) i
            (chebNodes cosf piv))) := by
    rw [hlen]
    apply mapE_ok
    intro i hi
    rw [idx_ok_getD (by rw [hflen]; exact List.mem_range.mp hi),
      getD_map_range _ (List.mem_range.mp hi)]
    rfl
  rw [construct]
  rw [h1]
  simp only []
  rw [if_neg (by norm_num)]
  rw [h2]
  simp only []
  rw [h3]

/-- With `n = 0`, `fac = 2.0 / n` raises `ZeroDivisionError`. -/
theorem construct_zero (cosf : α → α) (piv a b : α) (func : α → α) :
    construct cosf piv a b 0 func = Except.error PyErr.zeroDivisionError := by
  rfl

/-- With `n > 31`, the sampling comprehension `[func(nodes[k]) for k in range(n)]`
itself raises `IndexError` (at `k = 31`). -/
theorem sampling_err_gt31 (cosf : α → α) (piv : α) {n : ℕ} (h : 31 < n) (func : α → α) :
    mapE (fun k => Except.map func (idx (chebNodes cosf piv) k)) (List.range n)
      = Except.error PyErr.indexError := by
  have hlen := chebNodes_length cosf piv
  apply mapE_err _ _ _ (fun k _ => map_idx_shape func (chebNodes cosf piv) k) 31
    (List.mem_range.mpr h)
  rw [idx_err (by rw [hlen])]
  rfl

/-- With `n > 31`, sampling `func(nodes[k])` at `k = 31` raises `IndexError`. -/
theorem construct_gt31 (cosf : α → α) (piv a b : α) {n : ℕ} (h : 31 < n) (func : α → α) :
    construct cosf piv a b n func = Except.error PyErr.indexError := by
  rw [construct, sampling_err_gt31 cosf piv h func]

/-- With `0 < n < 31`, the Lagrange overwrite reads `f[i]` at `i = n`, past
the end of the `n`-element sample list: `IndexError`. -/
theorem construct_lt31 (cosf : α → α) (piv a b : α) {n : ℕ} (h0 : n ≠ 0) (h : n < 31)
    (func : α → α) :
    construct cosf piv a b n func = Except.error PyErr.indexError := by
  have hlen := chebNodes_length cosf piv
  have h1 : mapE (fun k => Except.map func (idx (chebNodes cosf piv) k)) (List.range n)
      = Except.ok ((List.range n).map (fun k => func ((chebNodes cosf piv).getD k 0))) := by
    apply mapE_ok
    intro k hk
    rw [idx_ok_getD (by rw [hlen]; exact lt_trans (List.mem_range.mp hk) h)]
    rfl
  have hflen : ((List.range n).map (fun k => func ((chebNodes cosf piv).getD k 0))).length
      = n := by simp
  have h2 : mapE (fun (j : ℕ) =>
        Except.map (fun ts => (2 / ((n : ℕ) : α)) * ts.sum)
          (mapE (fun (k : ℕ) =>
              Except.map (fun fk => fk * cosf (piv * (j : α) * ((k : α) + 1 / 2) / ((n : ℕ) : α)))
                (idx ((List.range n).map (fun k => func ((chebNodes cosf piv).getD k 0))) k))
            (List.range n)))
      (List.range n)
      = Except.ok ((List.range n).map (fun (j : ℕ) =>
          (2 / ((n : ℕ) : α)) * ((List.range n).map (fun (k : ℕ) =>
            (((List.range n).map (fun k => func ((chebNodes cosf piv).getD k 0))).getD k 0) *
              cosf (piv * (j : α) * ((k : α) + 1 / 2) / ((n : ℕ) : α)))).sum)) := by
    apply mapE_ok
    intro j _
    rw [mapE_ok _ (fun (k : ℕ) =>
        (((List.range n).map (fun k => func ((chebNodes cosf piv).getD k 0))).getD k 0) *
          cosf (piv * (j : α) * ((k : α) + 1 / 2) / ((n : ℕ) : α)))]
    · rfl
    · intro k hk
      rw [idx_ok_getD (by rw [hflen]; exact List.mem_range.mp hk)]
      rfl
  have h3 : mapE (fun i =>
        Except.map (fun fi => Lagrange_polynomial fi i (chebNodes cosf piv))
          (idx ((List.range n).map (fun k => func ((chebNodes cosf piv).getD k 0))) i))
      (List.range (chebNodes cosf piv).length)
      = Except.error PyErr.indexError := by
    rw [hlen]
    apply mapE_err _ _ _
      (fun i _ => map_idx_shape (fun fi => Lagrange_polynomial fi i (chebNodes cosf piv))
        ((List.range n).map (fun k => func ((chebNodes cosf piv).getD k 0))) i)
      n (List.mem_range.mpr h)
    rw [idx_err (by rw [hflen])]
    rfl
  rw [construct, h1]
  simp only []
  rw [if_neg h0, h2]
  simp only []
  rw [h3]

theorem drop_dropLast_eq (c : List α) :
    (c.drop 1).dropLast = (List.range' 1 (c.length - 2)).map (fun j => c.getD j 0) := by
  apply List.ext_getElem
  · simp only [List.length_dropLast, List.length_drop, List.length_map, List.length_range']
    omega
  · intro i h1 h2
    rw [List.getElem_dropLast, List.getElem_drop, List.getElem_map, List.getElem_range']
    have hi : 1 + 1 * i < c.length := by
      simp only [List.length_map, List.length_range'] at h2
      omega
    rw [List.getD_eq_getElem?_getD, List.getElem?_eq_getElem hi]
    simp only [Option.getD_some]
    congr 1
    omega

theorem getLastD_eq_getD (c : List α) :
    c.getLastD 0 = c.getD (c.length - 1) 0 := by
  rw [List.getLastD_eq_getLast?, List.getLast?_eq_getElem?, List.getD_eq_getElem?_getD]

/-- Successful evaluation: inside the interval, with distinct bounds and a
nonempty coefficient vector, `eval` returns the value computed by the
recurrence described in the specification. -/
theorem eval_ok {ch : Chebyshev α} {x : α} (h1 : ch.a ≤ x) (h2 : x ≤ ch.b)
    (hab : ch.a < ch.b) (hc : ch.c.isEmpty = false) :
    ch.eval x = Except.ok (evalSpec ch.a ch.b ch.c x) := by
  rw [Chebyshev.eval, if_pos ⟨h1, h2⟩, if_neg (sub_ne_zero_of_ne (ne_of_gt hab)),
    if_neg (by rw [hc]; exact Bool.false_ne_true)]
  rw [evalSpec]
  simp only []
  rw [mul_one_div, drop_dropLast_eq, ← List.map_reverse, getLastD_eq_getD]

/-- Out-of-interval evaluation fails at the `assert` before any computation. -/
theorem eval_out {ch : Chebyshev α} {x : α} (h : x < ch.a ∨ ch.b < x) :
    ch.eval x = Except.error PyErr.assertionError := by
  rw [Chebyshev.eval, if_neg]
  rintro ⟨hl, hr⟩
  rcases h with h | h
  · exact absurd hl (not_le_of_lt h)
  · exact absurd hr (not_le_of_lt h)

theorem mapE_ok_length {β γ : Type} (g : β → Except PyErr γ) :
    ∀ {l : List β} {l' : List γ}, mapE g l = Except.ok l' → l'.length = l.length
  | [], l', h => by
    rw [mapE] at h
    cases h
    rfl
  | x :: xs, l', h => by
    rw [mapE] at h
    cases hgx : g x with
    | error e => rw [hgx] at h; cases h
    | ok y =>
      rw [hgx] at h
      cases hxs : mapE g xs with
      | error e => rw [hxs] at h; cases h
      | ok ys =>
        rw [hxs] at h
        cases h
        simp [mapE_ok_length g hxs]

/-- Removing the dead DCT assignment does not change the constructor's
behaviour on any input: the DCT coefficient vector has no effect on any
observable output. -/
theorem construct_eq_noDct (cosf : α → α) (piv a b : α) (n : ℕ) (func : α → α) :
    construct cosf piv a b n func = constructNoDct cosf piv a b n func := by
  rw [construct, constructNoDct]
  cases h1 : mapE (fun k => Except.map func (idx (chebNodes cosf piv) k)) (List.range n) with
  | error e => rfl
  | ok fs =>
    simp only []
    by_cases h0 : n = 0
    · rw [if_pos h0, if_pos h0]
    · rw [if_neg h0, if_neg h0]
      have hflen : fs.length = n := by
        rw [mapE_ok_length _ h1, List.length_range]
      have h2 : mapE (fun (j : ℕ) =>
            Except.map (fun ts => (2 / ((n : ℕ) : α)) * ts.sum)
              (mapE (fun (k : ℕ) =>
                  Except.map
                    (fun fk => fk * cosf (piv * (j : α) * ((k : α) + 1 / 2) / ((n : ℕ) : α)))
                    (idx fs k))
                (List.range n)))
          (List.range n)
          = Except.ok ((List.range n).map (fun (j : ℕ) =>
              (2 / ((n : ℕ) : α)) * ((List.range n).map (fun (k : ℕ) =>
                fs.getD k 0 *
                  cosf (piv * (j : α) * ((k : α) + 1 / 2) / ((n : ℕ) : α)))).sum)) := by
        apply mapE_ok
        intro j _
        rw [mapE_ok _ (fun (k : ℕ) =>
            fs.getD k 0 * cosf (piv * (j : α) * ((k : α) + 1 / 2) / ((n : ℕ) : α)))]
        · rfl
        · intro k hk
          rw [idx_ok_getD (by rw [hflen]; exact List.mem_range.mp hk)]
          rfl
      rw [h2]

/-- A successful construction forces the requested degree to be `31`. -/
theorem construct_ok_n31 {cosf : α → α} {piv a b : α} {n : ℕ} {func : α → α}
    {ch : Chebyshev α} (hok : construct cosf piv a b n func = Except.ok ch) :
    n = 31 := by
  by_contra hne
  rcases Nat.lt_or_ge n 31 with hlt | hge
  · by_cases h0 : n = 0
    · subst h0
      rw [construct_zero] at hok
      cases hok
    · rw [construct_lt31 cosf piv a b h0 hlt func] at hok
      cases hok
  · have hgt : 31 < n := lt_of_le_of_ne hge (fun h => hne h.symm)
    rw [construct_gt31 cosf piv a b hgt func] at hok
    cases hok

/-- A successful construction pins down everything: the degree is 31 and the
object is the one described by `construct_31`. -/
theorem construct_ok_elim {cosf : α → α} {piv a b : α} {n : ℕ} {func : α → α}
    {ch : Chebyshev α} (hok : construct cosf piv a b n func = Except.ok ch) :
    ch = ⟨a, b, (List.range 31).map (fun i =>
      Lagrange_polynomial (func ((chebNodes cosf piv).getD i 0)) i
        (chebNodes cosf piv))⟩ := by
  have h31 := construct_ok_n31 hok
  subst h31
  rw [construct_31] at hok
  cases hok
  rfl

/-- The node list of the code coincides with the claim's description of it:
nine clusters of sizes `3,3,3,4,5,4,3,3,3` at integer offsets `-4 .. 4` with
jitter `0.01 * cos(((j - 0.5) / size) * pi)`. -/
theorem chebNodes_eq_specNodes (cosf : α → α) (piv : α) :
    chebNodes cosf piv = specNodes cosf piv := by
  rw [chebNodes, specNodes, List.flatMap_def]
  congr 1
  apply List.map_congr_left
  intro i hi
  have hi9 : i < 9 := List.mem_range.mp hi
  have hK : (K >>> 1 : ℕ) = 4 := rfl
  interval_cases i <;>
    exact List.map_congr_left (fun j _ => by
      push_cast [deg, specClusterSizes, specClusterOffsets, hK]
      norm_num)

/-- The first node sampled by the constructor is `-4 + 0.01·cos(π/6)`, a
negative number, whatever interval was requested. -/
theorem chebNodes_zero_neg :
    (chebNodes Real.cos Real.pi).getD 0 0 < 0 := by
  have h0 : (chebNodes Real.cos Real.pi).getD 0 0 =
      ((0 : ℕ) : ℝ) - ((K >>> 1 : ℕ) : ℝ) +
        (1 / 100) * Real.cos ((((1 : ℕ) : ℝ) - 1 / 2) / ((deg.getD 0 0 : ℕ) : ℝ) * Real.pi) :=
    rfl
  have hc := Real.cos_le_one ((((1 : ℕ) : ℝ) - 1 / 2) / ((deg.getD 0 0 : ℕ) : ℝ) * Real.pi)
  have h4 : ((K >>> 1 : ℕ) : ℝ) = 4 := by rw [show (K >>> 1 : ℕ) = 4 from rfl]; norm_num
  rw [h0, h4]
  push_cast
  nlinarith [hc]

/-- If the function capability raises at a node that gets sampled, the whole
construction fails. -/
theorem constructF_not_ok (cosf : α → α) (piv a b : α) {n k : ℕ}
    (func : α → Except PyErr α) (hk : k < n) {v : α}
    (hv : (chebNodes cosf piv)[k]? = some v) {err : PyErr}
    (hf : func v = Except.error err) :
    (constructF cosf piv a b n func).isOk = false := by
  have h1 : (mapE (fun k => Except.bind (idx (chebNodes cosf piv) k) func)
      (List.range n)).isOk = false := by
    apply mapE_not_ok _ _ k (List.mem_range.mpr hk)
    rw [idx_ok hv]
    show (func v).isOk = false
    rw [hf]
    rfl
  rw [constructF]
  cases hmp : mapE (fun k => Except.bind (idx (chebNodes cosf piv) k) func)
      (List.range n) with
  | error e => rfl
  | ok fs => rw [hmp] at h1; exact absurd h1 (by simp [isOk_ok])

/-- C1: for every successful construction, the final coefficient vector
satisfies `coefficient[i] = Π_{k ≠ i} (f(node_i) − node_k) / (node_i − node_k)`
— the Lagrange basis polynomial for node `i` evaluated at the sampled value
`f(node_i)` — and the DCT-style coefficient vector computed first is
unconditionally overwritten and has no effect on any observable output
(deleting its computation, `constructNoDct`, leaves the constructor's result
unchanged on every input). -/
theorem C1_coeff_lagrange (cosf : α → α) (piv a b : α) (n : ℕ) (func : α → α)
    (ch : Chebyshev α) (i : ℕ)
    (hok : construct cosf piv a b n func = Except.ok ch) (hi : i < ch.c.length) :
    ch.c.getD i 0 =
      Finset.prod ((Finset.range (chebNodes cosf piv).length).erase i)
        (fun k =>
          (func ((chebNodes cosf piv).getD i 0) - (chebNodes cosf piv).getD k 0) /
            ((chebNodes cosf piv).getD i 0 - (chebNodes cosf piv).getD k 0)) ∧
      construct cosf piv a b n func = constructNoDct cosf piv a b n func := by
  refine ⟨?_, construct_eq_noDct cosf piv a b n func⟩
  have he := construct_ok_elim hok
  subst he
  have hi31 : i < 31 := by simpa using hi
  show ((List.range 31).map (fun i =>
      Lagrange_polynomial (func ((chebNodes cosf piv).getD i 0)) i
        (chebNodes cosf piv))).getD i 0 = _
  rw [getD_map_range _ hi31, Lagrange_eq_prod]

/-- Witness for C1 at a concrete instance: interval `[-4, 4]`, degree `31`,
`func = id`, coefficient index `0`. -/
theorem C1_coeff_lagrange_witness :
    ((List.range 31).map (fun i =>
        Lagrange_polynomial ((chebNodes Real.cos Real.pi).getD i 0) i
          (chebNodes Real.cos Real.pi))).getD 0 0 =
      Finset.prod ((Finset.range (chebNodes Real.cos Real.pi).length).erase 0)
        (fun k =>
          ((chebNodes Real.cos Real.pi).getD 0 0 - (chebNodes Real.cos Real.pi).getD k 0) /
            ((chebNodes Real.cos Real.pi).getD 0 0 - (chebNodes Real.cos Real.pi).getD k 0)) ∧
      construct Real.cos Real.pi (-4 : ℝ) 4 31 (fun x => x) =
        constructNoDct Real.cos Real.pi (-4 : ℝ) 4 31 (fun x => x) :=
  C1_coeff_lagrange Real.cos Real.pi (-4) 4 31 (fun x => x)
    ⟨-4, 4, (List.range 31).map (fun i =>
      Lagrange_polynomial ((chebNodes Real.cos Real.pi).getD i 0) i
        (chebNodes Real.cos Real.pi))⟩
    0 (construct_31 Real.cos Real.pi (-4) 4 (fun x => x)) (by simp)

/-- C2: for every Approximator constructed with `lower < upper` and every
`x` in `[lower, upper]`, `eval(x)` returns exactly the value described by the
specification's algorithm (`evalSpec`): the normalization
`y = (2x − lower − upper) / (upper − lower)` followed by Clenshaw's
recurrence from the highest index down to index 1 and the final step
`y·d − dd + 0.5·coefficient[0]`.  The result is computed from the interval
and coefficient vector alone — `eval` has no access to the original
function. -/
theorem C2_eval_clenshaw (cosf : α → α) (piv a b : α) (n : ℕ) (func : α → α)
    (ch : Chebyshev α) (x : α)
    (hok : construct cosf piv a b n func = Except.ok ch)
    (hab : a < b) (hx1 : a ≤ x) (hx2 : x ≤ b) :
    ch.eval x = Except.ok (evalSpec a b ch.c x) := by
  have he := construct_ok_elim hok
  subst he
  exact eval_ok hx1 hx2 hab (by simp)

/-- Witness for C2 at a concrete instance: interval `[0, 1]`, degree `31`,
evaluation at the right endpoint `x = 1`. -/
theorem C2_eval_clenshaw_witness :
    (Chebyshev.mk (0 : ℝ) 1 ((List.range 31).map (fun i =>
        Lagrange_polynomial ((0 : ℝ)) i (chebNodes Real.cos Real.pi)))).eval 1 =
      Except.ok (evalSpec (0 : ℝ) 1 ((List.range 31).map (fun i =>
        Lagrange_polynomial ((0 : ℝ)) i (chebNodes Real.cos Real.pi))) 1) :=
  C2_eval_clenshaw Real.cos Real.pi 0 1 31 (fun _ => 0)
    ⟨0, 1, (List.range 31).map (fun i =>
      Lagrange_polynomial ((0 : ℝ)) i (chebNodes Real.cos Real.pi))⟩
    1 (construct_31 Real.cos Real.pi 0 1 (fun _ => 0)) (by norm_num) (by norm_num)
    (by norm_num)

/-- C3: the node sequence is exactly the concatenation, over nine clusters of
sizes `3,3,3,4,5,4,3,3,3` at the integer offsets `-4 .. 4`, of
`clusterOffset_i + 0.01·cos(((j − 0.5) / clusterSize_i)·π)` for
`j = 1..clusterSize_i`; and for every construction that succeeds the cluster
sizes total the requested degree `n` exactly. -/
theorem C3_node_layout (cosf : α → α) (piv a b : α) (n : ℕ) (func : α → α) :
    chebNodes cosf piv = specNodes cosf piv ∧
      ((construct cosf piv a b n func).isOk = true → n = specClusterSizes.sum) := by
  refine ⟨chebNodes_eq_specNodes cosf piv, fun hok => ?_⟩
  cases h : construct cosf piv a b n func with
  | error e => rw [h] at hok; exact absurd hok (by simp [isOk_error])
  | ok ch => rw [construct_ok_n31 h]; rfl

/-- Witness for C3 at a concrete instance (degree `31`, interval `[0, 1]`). -/
theorem C3_node_layout_witness :
    chebNodes Real.cos Real.pi = specNodes Real.cos Real.pi ∧
      31 = specClusterSizes.sum :=
  ⟨(C3_node_layout Real.cos Real.pi (0 : ℝ) 1 31 (fun _ => 0)).1,
    (C3_node_layout Real.cos Real.pi (0 : ℝ) 1 31 (fun _ => 0)).2
      (by rw [construct_31]; rfl)⟩

/-- Counterexample to C4 as stated: the constructor accepts the degenerate
interval `lower = upper = 0`, and on the resulting Approximator `eval(0)` —
with `lower ≤ 0 ≤ upper` — does not succeed: it raises `ZeroDivisionError`
computing `1.0 / (b - a)`, not the claimed success (and not a domain
error). -/
theorem C4_counterexample :
    Except.map (fun ch => ch.eval 0) (construct Real.cos Real.pi (0 : ℝ) 0 31 (fun _ => 0)) =
      Except.ok (Except.error PyErr.zeroDivisionError) := by
  rw [construct_31]
  show Except.ok ((Chebyshev.mk (0 : ℝ) 0 _).eval 0) = _
  rw [Chebyshev.eval, if_pos ⟨le_refl (0 : ℝ), le_refl (0 : ℝ)⟩, if_pos (by norm_num)]

/-- C4 as amended: for every Approximator constructed with `lower < upper`,
`eval(x)` succeeds for every `x` with `lower ≤ x ≤ upper` (including the
endpoints), and for every `x` outside the interval it fails with the domain
assertion error (Python's `AssertionError` from `assert(a <= x <= b)`, the
specification's `DomainError`) before performing any computation. -/
theorem C4_eval_domain (cosf : α → α) (piv a b : α) (n : ℕ) (func : α → α)
    (ch : Chebyshev α) (x : α)
    (hok : construct cosf piv a b n func = Except.ok ch) (hab : a < b) :
    ((a ≤ x ∧ x ≤ b) → (ch.eval x).isOk = true) ∧
      ((x < a ∨ b < x) → ch.eval x = Except.error PyErr.assertionError) := by
  have he := construct_ok_elim hok
  subst he
  constructor
  · rintro ⟨h1, h2⟩
    rw [eval_ok h1 h2 hab (by simp)]
    rfl
  · exact fun h => eval_out h

/-- Witness for the amended C4: interval `[0, 1]`; `eval` succeeds at the
endpoint `x = 1` and fails with the assertion error at `x = 2`. -/
theorem C4_eval_domain_witness :
    (((Chebyshev.mk (0 : ℝ) 1 ((List.range 31).map (fun i =>
        Lagrange_polynomial ((0 : ℝ)) i (chebNodes Real.cos Real.pi)))).eval 1).isOk
      = true) ∧
      ((Chebyshev.mk (0 : ℝ) 1 ((List.range 31).map (fun i =>
        Lagrange_polynomial ((0 : ℝ)) i (chebNodes Real.cos Real.pi)))).eval 2
      = Except.error PyErr.assertionError) :=
  ⟨(C4_eval_domain Real.cos Real.pi 0 1 31 (fun _ => 0)
      ⟨0, 1, (List.range 31).map (fun i =>
        Lagrange_polynomial ((0 : ℝ)) i (chebNodes Real.cos Real.pi))⟩
      1 (construct_31 Real.cos Real.pi 0 1 (fun _ => 0)) (by norm_num)).1
      ⟨by norm_num, le_refl 1⟩,
    (C4_eval_domain Real.cos Real.pi 0 1 31 (fun _ => 0)
      ⟨0, 1, (List.range 31).map (fun i =>
        Lagrange_polynomial ((0 : ℝ)) i (chebNodes Real.cos Real.pi))⟩
      2 (construct_31 Real.cos Real.pi 0 1 (fun _ => 0)) (by norm_num)).2
      (Or.inr (by norm_num))⟩

/-- Counterexample to C5 as stated: the sum of the fixed cluster sizes is
`31`, not `27`, and `Construct(0, 1, 10, f)` fails with the out-of-range
indexing error — the program has no dedicated degree-mismatch error at
all. -/
theorem C5_counterexample :
    deg.sum ≠ 27 ∧
      construct Real.cos Real.pi (0 : ℝ) 1 10 (fun _ => 0) =
        Except.error PyErr.indexError :=
  ⟨by decide, construct_lt31 Real.cos Real.pi 0 1 (by norm_num) (by norm_num) (fun _ => 0)⟩

/-- C5 as amended: construction fails whenever the requested degree differs
from the sum of the fixed cluster sizes (which is `31`, not `27`); the
failure is a runtime indexing/division error, never a dedicated
`DegreeMismatchError`. -/
theorem C5_degree_mismatch (cosf : α → α) (piv a b : α) {n : ℕ} (func : α → α)
    (hn : n ≠ deg.sum) : (construct cosf piv a b n func).isOk = false := by
  have h31 : deg.sum = 31 := rfl
  rw [h31] at hn
  rcases Nat.lt_or_ge n 31 with hlt | hge
  · by_cases h0 : n = 0
    · subst h0
      rw [construct_zero]
      rfl
    · rw [construct_lt31 cosf piv a b h0 hlt func]
      rfl
  · rw [construct_gt31 cosf piv a b (lt_of_le_of_ne hge (fun h => hn h.symm)) func]
    rfl

/-- Witness for the amended C5 at the claim's own instance
`Construct(0, 1, 10, f)`. -/
theorem C5_degree_mismatch_witness :
    (construct Real.cos Real.pi (0 : ℝ) 1 10 (fun _ => 0)).isOk = false :=
  C5_degree_mismatch Real.cos Real.pi 0 1 (fun _ => 0) (by decide)

/-- Counterexample to C6 as stated: with the target interval `[0, 1]`
construction succeeds, yet the first node — at which the function capability
is invoked — is negative, hence outside `[0, 1]`: the nodes are never mapped
into the target interval. -/
theorem C6_counterexample :
    (construct Real.cos Real.pi (0 : ℝ) 1 31 (fun x => x)).isOk = true ∧
      (chebNodes Real.cos Real.pi).getD 0 0 < 0 :=
  ⟨by rw [construct_31]; rfl, chebNodes_zero_neg⟩

/-- C6 as amended: the node sequence is independent of the target interval
and is never mapped into `[lower, upper]`; the function capability is
sampled at the raw node values, so the retained coefficient vector — and
with it every sampled point — is identical for any two target intervals. -/
theorem C6_nodes_unmapped (cosf : α → α) (piv a b a' b' : α) (n : ℕ) (func : α → α) :
    Except.map Chebyshev.c (construct cosf piv a b n func) =
      Except.map Chebyshev.c (construct cosf piv a' b' n func) := by
  rcases Nat.lt_or_ge n 31 with hlt | hge
  · by_cases h0 : n = 0
    · subst h0
      rw [construct_zero, construct_zero]
    · rw [construct_lt31 cosf piv a b h0 hlt func,
        construct_lt31 cosf piv a' b' h0 hlt func]
  · rcases eq_or_lt_of_le hge with heq | hgt
    · rw [← heq, construct_31, construct_31]
      rfl
    · rw [construct_gt31 cosf piv a b hgt func, construct_gt31 cosf piv a' b' hgt func]

/-- Counterexample to C7 as stated: with `lower = 1 ≥ 0 = upper` the
constructor still succeeds — no `InvalidIntervalError` (or any interval
validation) exists. -/
theorem C7_counterexample :
    (construct Real.cos Real.pi (1 : ℝ) 0 31 (fun _ => 0)).isOk = true := by
  rw [construct_31]
  rfl

/-- C7 as amended: `Construct` performs no validation of the interval; for
every `lower ≥ upper` (with the one accepted degree `31`) construction
succeeds and an Approximator is produced. -/
theorem C7_no_interval_validation (cosf : α → α) (piv a b : α) (func : α → α)
    (_hba : b ≤ a) : (construct cosf piv a b 31 func).isOk = true := by
  rw [construct_31]
  rfl

/-- Witness for the amended C7 at the concrete inverted interval `[1, 0]`. -/
theorem C7_no_interval_validation_witness :
    (construct Real.cos Real.pi (1 : ℝ) 0 31 (fun _ => 0)).isOk = true :=
  C7_no_interval_validation Real.cos Real.pi 1 0 (fun _ => 0) (by norm_num)

/-- C8: if the supplied function capability raises an error at any node that
gets sampled (position `k < n` of the node list), construction fails
entirely — no Approximator (and hence no partial coefficient vector) is
produced. -/
theorem C8_function_error (cosf : α → α) (piv a b : α) (n k : ℕ)
    (func : α → Except PyErr α) (v : α) (err : PyErr) (hk : k < n)
    (hv : (chebNodes cosf piv)[k]? = some v) (hf : func v = Except.error err) :
    (constructF cosf piv a b n func).isOk = false :=
  constructF_not_ok cosf piv a b func hk hv hf

/-- Witness for C8: a capability that raises everywhere makes the
degree-31 construction fail. -/
theorem C8_function_error_witness :
    (constructF Real.cos Real.pi (0 : ℝ) 1 31
      (fun _ => Except.error PyErr.valueError)).isOk = false := by
  have hlt : 0 < (chebNodes Real.cos Real.pi).length := by
    rw [chebNodes_length]
    norm_num
  exact C8_function_error Real.cos Real.pi 0 1 31 0
    (fun _ => Except.error PyErr.valueError)
    ((chebNodes Real.cos Real.pi).getD 0 0) PyErr.valueError (by norm_num)
    (by rw [List.getD_eq_getElem?_getD, List.getElem?_eq_getElem hlt, Option.getD_some]) rfl

/-- C9: for every `lower < upper` and every degree equal to the sum `31` of
the fixed cluster sizes, construction with a total function succeeds and the
retained coefficient vector has length exactly `degree`. -/
theorem C9_construct_length (cosf : α → α) (piv a b : α) (n : ℕ) (func : α → α)
    (_hab : a < b) (hn : n = deg.sum) :
    Except.map (fun ch => ch.c.length) (construct cosf piv a b n func) =
      Except.ok n := by
  subst hn
  rw [show deg.sum = 31 from rfl, construct_31]
  simp [Except.map]

/-- Witness for C9 at the concrete instance `(0, 1, 31)`. -/
theorem C9_construct_length_witness :
    Except.map (fun ch => ch.c.length)
        (construct Real.cos Real.pi (0 : ℝ) 1 31 (fun _ => 0)) =
      Except.ok 31 :=
  C9_construct_length Real.cos Real.pi 0 1 31 (fun _ => 0) (by norm_num) (by decide)

/-- Counterexample to C10 as stated: for the requested degree `n = 0` (which
is `< 31`), construction fails with `ZeroDivisionError` from `fac = 2.0 / n`
— not with the claimed out-of-range indexing error in the Lagrange loop. -/
theorem C10_counterexample :
    construct Real.cos Real.pi (0 : ℝ) 1 0 (fun _ => 0) =
        Except.error PyErr.zeroDivisionError ∧
      (Except.error PyErr.zeroDivisionError : Except PyErr (Chebyshev ℝ)) ≠
        Except.error PyErr.indexError :=
  ⟨construct_zero Real.cos Real.pi 0 1 (fun _ => 0), by simp⟩

/-- C10 as amended: for every requested degree `n ≠ 31`, construction fails —
with the out-of-range indexing error for `n ≥ 1` (during sampling for
`n > 31`, whose comprehension already fails, and while reading `f[i]` in the
Lagrange loop for `1 ≤ n < 31`), but with a division-by-zero error from
`fac = 2.0 / n` for `n = 0`; construction completes only when `n = 31`. -/
theorem C10_degree_index_errors (cosf : α → α) (piv a b : α) {n : ℕ} (func : α → α)
    (hn : n ≠ 31) :
    construct cosf piv a b n func =
        Except.error (if n = 0 then PyErr.zeroDivisionError else PyErr.indexError) ∧
      (31 < n →
        (mapE (fun k => Except.map func (idx (chebNodes cosf piv) k))
            (List.range n)).isOk = false) ∧
      (construct cosf piv a b 31 func).isOk = true := by
  refine ⟨?_, fun hgt => ?_, by rw [construct_31]; rfl⟩
  · by_cases h0 : n = 0
    · subst h0
      rw [if_pos rfl]
      exact construct_zero cosf piv a b func
    · rw [if_neg h0]
      rcases Nat.lt_or_ge n 31 with hlt | hge
      · exact construct_lt31 cosf piv a b h0 hlt func
      · exact construct_gt31 cosf piv a b (lt_of_le_of_ne hge (fun h => hn h.symm)) func
  · rw [sampling_err_gt31 cosf piv hgt func]
    rfl

/-- Witness for the amended C10 at the concrete degree `32`. -/
theorem C10_degree_index_errors_witness :
    construct Real.cos Real.pi (0 : ℝ) 1 32 (fun _ => 0) =
        Except.error PyErr.indexError ∧
      (mapE (fun k => Except.map (fun _ => (0 : ℝ)) (idx (chebNodes Real.cos Real.pi) k))
          (List.range 32)).isOk = false ∧
      (construct Real.cos Real.pi (0 : ℝ) 1 31 (fun _ => 0)).isOk = true := by
  obtain ⟨h1, h2, h3⟩ :=
    @C10_degree_index_errors ℝ _ Real.cos Real.pi 0 1 32 (fun _ => 0) (by norm_num)
  exact ⟨h1, h2 (by norm_num), h3⟩

end BootCheby
